import Mathlib

/-!
# Verification of `image_reducer.py`

A shallow embedding of the image-reducer program and proofs about it.

The program batch-compresses images: it scans a `photos` folder for image
files, copies each to a `backup` folder, and re-encodes a (possibly
downscaled) JPEG copy into a `reduced` folder, accumulating size totals.

Modelling conventions:
* PIL images are modelled by their mode, pixel dimensions and EXIF
  orientation tag; the filesystem by a list of paths; byte sizes and the
  encoder's output size are environment data carried in a `Source` record.
* Pillow's float arithmetic in `Image.thumbnail` is idealised as exact
  rational arithmetic, expressed over `Nat`/`Int` by cross-multiplication.
* Python exceptions are modelled by `Option`/explicit failure flags: a
  decode failure is `decode = none`, an unwritable destination is
  `writeOk = false`, and an encode of a JPEG-unsupported mode fails.
-/

namespace ImageReducer

/-- PIL image modes that can be produced by decoding the supported input
formats (jpg/jpeg/png/bmp/tiff/webp). `one` is PIL's bilevel mode "1",
`LA` is greyscale with alpha, `P` is palette-based. -/
inductive Mode where
  | one | L | LA | P | RGB | RGBA | CMYK | YCbCr
deriving DecidableEq, Repr

/-- Modes carrying an alpha channel. -/
def Mode.hasAlpha : Mode → Bool
  | .LA => true
  | .RGBA => true
  | _ => false

/-- Modes Pillow's JPEG encoder accepts (the keys of
`JpegImagePlugin.RAWMODE`): saving any other mode raises
`OSError: cannot write mode ... as JPEG`. -/
def Mode.jpegWritable : Mode → Bool
  | .one => true
  | .L => true
  | .RGB => true
  | .CMYK => true
  | .YCbCr => true
  | _ => false

/-- A decoded PIL image: mode, pixel size and the EXIF orientation tag
(1–8; 1 or anything else means "no transposition needed"). -/
structure Image where
  mode : Mode
  width : Nat
  height : Nat
  orientation : Nat
deriving DecidableEq, Repr

/-- Everything the environment determines about one source file:
the decode result, the source's byte size (`os.path.getsize`), whether the
destination is writable, and the byte size the JPEG encoder produces. -/
structure Source where
  decode : Option Image
  fileSize : Nat
  writeOk : Bool
  encodedSize : Nat
deriving DecidableEq, Repr

/-- `ImageOps.exif_transpose`: applies the stored orientation to the pixel
data and drops the tag. Orientations 5–8 (transpose / rotate 90 / 270 /
transverse) swap width and height; 2–4 (flips, rotate 180) keep them. -/
def ImageOps_exif_transpose (img : Image) : Image :=
  if img.orientation = 5 ∨ img.orientation = 6 ∨
      img.orientation = 7 ∨ img.orientation = 8 then
    { img with width := img.height, height := img.width, orientation := 1 }
  else
    { img with orientation := 1 }

/-- Ceiling division on `Nat`, as Pillow's `math.ceil(a / b)` on exact
rationals. -/
def ceilDiv (a b : Nat) : Nat := (a + b - 1) / b

/-- The size computed by Pillow's `Image.thumbnail` (its inner
`preserve_aspect_ratio`): `none` is the early return (both bounds already
hold), otherwise the aspect-preserving size.

With `aspect = w / h`: when `mw / mh ≥ aspect` the new width is the value
of `round_aspect(mh * aspect, key = fun n => |aspect - n / mh|)`, i.e. the
element of `{floor, ceil}` of `mh * w / h` minimising `|w * mh - n * h|`
(floor on ties, clamped to at least 1); symmetrically for the new height,
whose key `|aspect - mw / n|` cross-multiplies to comparing
`|w * a - mw * h| * b` with `|w * b - mw * h| * a`, with `key 0 = 0`. -/
def pickFloorX (w h mh a b : Nat) : Bool :=
  ((w * mh : Int) - a * h).natAbs ≤ ((w * mh : Int) - b * h).natAbs

def pickFloorY (w h mw a b : Nat) : Bool :=
  if a = 0 then true
  else ((w * a : Int) - mw * h).natAbs * b ≤ ((w * b : Int) - mw * h).natAbs * a

def thumbnailSize (w h mw mh : Nat) : Option (Nat × Nat) :=
  if mw ≥ w ∧ mh ≥ h then none
  else if mw * h ≥ mh * w then
    some (max (if pickFloorX w h mh (mh * w / h) (ceilDiv (mh * w) h)
      then mh * w / h else ceilDiv (mh * w) h) 1, mh)
  else
    some (mw, max (if pickFloorY w h mw (mw * h / w) (ceilDiv (mw * h) w)
      then mw * h / w else ceilDiv (mw * h) w) 1)

/-- `img.thumbnail((mw, mh), LANCZOS)`: resize in place to
`thumbnailSize`, or leave the image untouched on the early return. -/
def Image.thumbnail (img : Image) (mw mh : Nat) : Image :=
  match thumbnailSize img.width img.height mw mh with
  | none => img
  | some (w, h) => { img with width := w, height := h }

/-- A call to `img.save(dest, fmt, ...)` that succeeded. -/
structure SaveCall where
  dest : String
  format : String
deriving DecidableEq, Repr

/-- What one invocation of `reduce_image_size` produced: the returned
`(original_size, new_size)` pair, the image handed to the encoder at
`img.save` (none if decode failed before reaching it), and the written
output (none on any failure). -/
structure TransformOutcome where
  result : Nat × Nat
  preEncode : Option Image
  output : Option Image
  write : Option SaveCall
deriving DecidableEq, Repr

/-- Line 22–23: `if img.mode in ('RGBA', 'P'): img = img.convert('RGB')`. -/
def convertStep (img : Image) : Image :=
  if img.mode = Mode.RGBA ∨ img.mode = Mode.P then
    { img with mode := Mode.RGB }
  else img

/-- Line 27–28: `if original_width > max_width or original_height >
max_height: img.thumbnail((max_width, max_height), LANCZOS)`. -/
def resizeStep (max_width max_height : Nat) (img : Image) : Image :=
  if img.width > max_width ∨ img.height > max_height then
    img.thumbnail max_width max_height
  else img

/-- `reduce_image_size(image_path, output_path, quality, max_width,
max_height)`: decode, `exif_transpose`, convert `RGBA`/`P` to `RGB`,
`thumbnail` when a dimension exceeds its bound, save as JPEG, return the
two byte sizes; on any failure the `except` clause returns `(0, 0)`. -/
def reduce_image_size (output_path : String) (src : Source)
    (quality max_width max_height : Nat) : TransformOutcome :=
  match src.decode with
  | none => ⟨(0, 0), none, none, none⟩
  | some img0 =>
    let img3 := resizeStep max_width max_height
      (convertStep (ImageOps_exif_transpose img0))
    if img3.mode.jpegWritable ∧ src.writeOk then
      ⟨(src.fileSize, src.encodedSize), some img3, some img3,
        some ⟨output_path, "JPEG"⟩⟩
    else
      ⟨(0, 0), some img3, none, none⟩

/-- Lower-casing as in Python's `str.lower` (code-point map). -/
def str_lower (s : String) : String := ⟨s.data.map Char.toLower⟩

/-- The extension tuple of `get_image_files`. -/
def supported_formats : List String :=
  [".jpg", ".jpeg", ".png", ".bmp", ".tiff", ".webp"]

/-- `filename.lower().endswith(supported_formats)`: Python `endswith` is a
code-point suffix test. -/
def isSupportedName (filename : String) : Bool :=
  supported_formats.any (fun ext => ext.data.isSuffixOf (str_lower filename).data)

/-- `os.path.join` for the POSIX cases arising here. -/
def os_path_join (a b : String) : String :=
  if ('/' :: []).isPrefixOf b.data then b
  else if a = "" ∨ ('/' :: []).isSuffixOf a.data then a ++ b
  else a ++ "/" ++ b

/-- `os.path.basename`: everything after the last slash. -/
def os_path_basename (p : String) : String :=
  ⟨(p.data.reverse.takeWhile (fun c => c != '/')).reverse⟩

/-- `get_image_files(folder_path)`: filter the directory listing by
supported extension, join each name onto the folder path, and return the
result sorted (Python's `sorted`, lexicographic by code point). -/
def get_image_files (folder_path : String) (listing : List String) : List String :=
  List.mergeSort ((listing.filter isSupportedName).map (os_path_join folder_path))

/-- `os.makedirs(p, exist_ok=True)` on a filesystem modelled as the list
of existing paths. -/
def makedirs (p : String) (fs : List String) : List String :=
  if p ∈ fs then fs else p :: fs

/-- `create_folders(base_path)`: ensure `backup` and `reduced` exist under
the base path and return their paths, together with the updated
filesystem. -/
def create_folders (base_path : String) (fs : List String) :
    (String × String) × List String :=
  let backup_folder := os_path_join base_path "backup"
  let reduced_folder := os_path_join base_path "reduced"
  ((backup_folder, reduced_folder), makedirs reduced_folder (makedirs backup_folder fs))

/-- The run accumulator of `main`. -/
structure Totals where
  processed_count : Nat
  total_original_size : Nat
  total_new_size : Nat
deriving DecidableEq, Repr

/-- Per-file environment: whether `shutil.copy2` to the backup folder
succeeds, and the source data seen by the transform. -/
structure FileEnv where
  backupOk : Bool
  src : Source
deriving Repr

/-- Observable state of the batch loop: the totals plus a log of the
`reduce_image_size` invocations (by destination path) and of the files
actually written. -/
structure BatchState where
  totals : Totals
  transformCalls : List String
  writes : List SaveCall
deriving DecidableEq, Repr

/-- One iteration of `main`'s `for image_path in image_files` loop:
backup, transform, and accumulate when both returned sizes are positive;
a backup failure is caught by the `except` and skips the whole body. -/
def driverStep (quality max_width max_height : Nat) (reduced_folder : String)
    (env : String → FileEnv) (st : BatchState) (image_path : String) : BatchState :=
  let filename := os_path_basename image_path
  let reduced_path := os_path_join reduced_folder filename
  let fe := env image_path
  if fe.backupOk then
    let r := reduce_image_size reduced_path fe.src quality max_width max_height
    let totals :=
      if r.result.1 > 0 ∧ r.result.2 > 0 then
        ⟨st.totals.processed_count + 1,
         st.totals.total_original_size + r.result.1,
         st.totals.total_new_size + r.result.2⟩
      else st.totals
    { totals := totals,
      transformCalls := st.transformCalls ++ [reduced_path],
      writes := st.writes ++ (match r.write with | some w => [w] | none => []) }
  else st

/-- The whole batch loop, from zeroed totals. -/
def runBatch (quality max_width max_height : Nat) (reduced_folder : String)
    (env : String → FileEnv) (image_files : List String) : BatchState :=
  image_files.foldl (driverStep quality max_width max_height reduced_folder env)
    ⟨⟨0, 0, 0⟩, [], []⟩

/-- Environment of one `main` run. -/
structure MainEnv where
  script_dir : String
  photosExists : Bool
  photosIsDir : Bool
  listing : List String
  perFile : String → FileEnv

/-- How a run of `main` ended. -/
inductive RunOutcome where
  | folderNotFound
  | notADirectory
  | noImages
  | completed (st : BatchState)

/-- `main()`: early returns for a missing or non-directory photos folder
and for an empty scan; otherwise provision folders and run the batch.
Returns the outcome and the filesystem after the run. -/
def mainRun (e : MainEnv) (fs : List String) : RunOutcome × List String :=
  let input_folder := os_path_join e.script_dir "photos"
  if ¬ e.photosExists then (.folderNotFound, fs)
  else if ¬ e.photosIsDir then (.notADirectory, fs)
  else
    let image_files := get_image_files input_folder e.listing
    if image_files.isEmpty then (.noImages, fs)
    else
      let pr := create_folders e.script_dir fs
      let st := runBatch 85 1200 1200 pr.1.2 e.perFile image_files
      (.completed st, pr.2)

/-! ## Basic lemmas -/

lemma mem_makedirs_self (p : String) (fs : List String) : p ∈ makedirs p fs := by
  unfold makedirs
  split
  · assumption
  · exact List.mem_cons_self p fs

lemma mem_makedirs_of_mem {q : String} {fs : List String} (p : String)
    (h : q ∈ fs) : q ∈ makedirs p fs := by
  unfold makedirs
  split
  · exact h
  · exact List.mem_cons_of_mem p h

lemma makedirs_eq_of_mem {p : String} {fs : List String} (h : p ∈ fs) :
    makedirs p fs = fs := by
  unfold makedirs
  simp [h]

lemma driverStep_of_backupOk_false {env : String → FileEnv} {image_path : String}
    (quality max_width max_height : Nat) (reduced_folder : String) (st : BatchState)
    (h : (env image_path).backupOk = false) :
    driverStep quality max_width max_height reduced_folder env st image_path = st := by
  simp [driverStep, h]

lemma reduce_result_of_output_none {output_path : String} {src : Source}
    {quality max_width max_height : Nat}
    (h : (reduce_image_size output_path src quality max_width max_height).output = none) :
    (reduce_image_size output_path src quality max_width max_height).result = (0, 0) := by
  obtain ⟨dec, fsz, wok, enc⟩ := src
  cases dec with
  | none => rfl
  | some img0 =>
    simp only [reduce_image_size] at h ⊢
    split at h
    · simp at h
    · rename_i hcond
      rw [if_neg hcond]

lemma reduce_result_of_output_isSome {output_path : String} {src : Source}
    {quality max_width max_height : Nat}
    (h : (reduce_image_size output_path src quality max_width max_height).output.isSome = true) :
    (reduce_image_size output_path src quality max_width max_height).result =
      (src.fileSize, src.encodedSize) := by
  obtain ⟨dec, fsz, wok, enc⟩ := src
  cases dec with
  | none => simp [reduce_image_size] at h
  | some img0 =>
    simp only [reduce_image_size] at h ⊢
    split at h
    · rename_i hcond
      rw [if_pos hcond]
    · simp at h

lemma reduce_write_shape (output_path : String) (src : Source)
    (quality max_width max_height : Nat) :
    (reduce_image_size output_path src quality max_width max_height).write = none ∨
    (reduce_image_size output_path src quality max_width max_height).write =
      some ⟨output_path, "JPEG"⟩ := by
  obtain ⟨dec, fsz, wok, enc⟩ := src
  cases dec with
  | none => exact Or.inl rfl
  | some img0 =>
    simp only [reduce_image_size]
    split
    · exact Or.inr rfl
    · exact Or.inl rfl

lemma writes_of_foldl (quality max_width max_height : Nat) (reduced_folder : String)
    (env : String → FileEnv) :
    ∀ (files : List String) (st : BatchState) (w : SaveCall),
      w ∈ (files.foldl (driverStep quality max_width max_height reduced_folder env) st).writes →
      w ∈ st.writes ∨ ∃ p, p ∈ files ∧
        w.dest = os_path_join reduced_folder (os_path_basename p) ∧ w.format = "JPEG" := by
  intro files
  induction files with
  | nil => exact fun st w h => Or.inl h
  | cons p ps ih =>
    intro st w h
    rw [List.foldl_cons] at h
    rcases ih _ w h with hw | ⟨q, hq, hd, hf⟩
    · by_cases hb : (env p).backupOk = true
      · simp only [driverStep, hb, if_true] at hw
        rcases List.mem_append.mp hw with h1 | h2
        · exact Or.inl h1
        · rcases reduce_write_shape (os_path_join reduced_folder (os_path_basename p))
              (env p).src quality max_width max_height with hn | hs
          · rw [hn] at h2
            simp at h2
          · rw [hs] at h2
            simp only [List.mem_singleton] at h2
            subst h2
            exact Or.inr ⟨p, List.mem_cons_self p ps, rfl, rfl⟩
      · rw [driverStep_of_backupOk_false _ _ _ _ _ (Bool.not_eq_true _ ▸ hb)] at hw
        exact Or.inl hw
    · exact Or.inr ⟨q, List.mem_cons_of_mem p hq, hd, hf⟩

lemma ImageOps_exif_transpose_mode (img : Image) :
    (ImageOps_exif_transpose img).mode = img.mode := by
  unfold ImageOps_exif_transpose
  split <;> rfl

lemma Image.thumbnail_mode (img : Image) (max_width max_height : Nat) :
    (img.thumbnail max_width max_height).mode = img.mode := by
  unfold Image.thumbnail
  split <;> rfl

lemma resizeStep_mode (max_width max_height : Nat) (img : Image) :
    (resizeStep max_width max_height img).mode = img.mode := by
  unfold resizeStep
  split
  · exact Image.thumbnail_mode img max_width max_height
  · rfl

lemma convertStep_mode_of_alpha_or_palette {img : Image}
    (h : img.mode = Mode.RGBA ∨ img.mode = Mode.P) :
    (convertStep img).mode = Mode.RGB := by
  unfold convertStep
  rw [if_pos h]

lemma Mode.hasAlpha_eq_false_of_jpegWritable {m : Mode}
    (h : m.jpegWritable = true) : m.hasAlpha = false := by
  cases m <;> first | rfl | exact absurd h (by decide)

lemma convertStep_width (img : Image) : (convertStep img).width = img.width := by
  unfold convertStep
  split <;> rfl

lemma convertStep_height (img : Image) : (convertStep img).height = img.height := by
  unfold convertStep
  split <;> rfl

/-- Both rounding candidates of Pillow's `round_aspect` — the floor and
the ceiling of `C / H`, clamped to at least 1 — stay within the bound `MW`
(when `C ≤ MW * H`) and land within one `H`-step of `C`. -/
lemma round_candidates (C H MW : Nat) (hH : 0 < H) (hMW : 0 < MW) (hC : 0 < C)
    (hbr : C ≤ MW * H) :
    ∀ v, (v = C / H ∨ v = ceilDiv C H) →
      max v 1 ≤ MW ∧ (max v 1) * H < C + H ∧ C < (max v 1) * H + H := by
  have e1 : C / H * H + C % H = C := Nat.div_add_mod' C H
  have e2 : C % H < H := Nat.mod_lt _ hH
  have e3 : (C + H - 1) / H * H + (C + H - 1) % H = C + H - 1 := Nat.div_add_mod' _ H
  have e4 : (C + H - 1) % H < H := Nat.mod_lt _ hH
  have hqle : C / H ≤ MW := Nat.le_of_mul_le_mul_right (by omega) hH
  have hsucc : (MW + 1) * H = MW * H + H := by ring
  have hq2le : (C + H - 1) / H ≤ MW := by
    have h1 : (C + H - 1) / H * H < (MW + 1) * H := by omega
    have h2 := lt_of_mul_lt_mul_right h1 (Nat.zero_le H)
    omega
  intro v hv
  have hv' : v = C / H ∨ v = (C + H - 1) / H := by
    rcases hv with h | h
    · exact Or.inl h
    · exact Or.inr (by rw [h]; rfl)
  rcases Nat.eq_zero_or_pos v with hv0 | hvpos
  · have hmax : max v 1 = 1 := by rw [hv0]; rfl
    rw [hmax]
    refine ⟨hMW, by omega, ?_⟩
    rcases hv' with h | h
    · have h0 : C / H = 0 := by omega
      have hz : C / H * H = 0 := by rw [h0]; exact Nat.zero_mul H
      omega
    · have h0 : (C + H - 1) / H = 0 := by omega
      have hz : (C + H - 1) / H * H = 0 := by rw [h0]; exact Nat.zero_mul H
      omega
  · have hmax : max v 1 = v := Nat.max_eq_left hvpos
    rw [hmax]
    rcases hv' with rfl | rfl
    · exact ⟨hqle, by omega, by omega⟩
    · exact ⟨hq2le, by omega, by omega⟩

lemma thumbnailSize_isSome (w h mw mh : Nat) (hbig : mw < w ∨ mh < h) :
    ∃ p, thumbnailSize w h mw mh = some p := by
  unfold thumbnailSize
  rw [if_neg (by omega : ¬ (mw ≥ w ∧ mh ≥ h))]
  by_cases hbr : mw * h ≥ mh * w
  · rw [if_pos hbr]
    exact ⟨_, rfl⟩
  · rw [if_neg hbr]
    exact ⟨_, rfl⟩

/-- Whatever candidate `round_aspect`'s key picks, a computed thumbnail
size obeys both bounds and preserves the aspect ratio within one pixel:
the width is within one of `p.2 * w / h` (scaled by `h`), or the height is
within one of `p.1 * h / w` (scaled by `w`). -/
lemma thumbnailSize_spec {w h mw mh : Nat} {p : Nat × Nat}
    (hp : thumbnailSize w h mw mh = some p)
    (hw : 0 < w) (hh : 0 < h) (hmw : 0 < mw) (hmh : 0 < mh) :
    p.1 ≤ mw ∧ p.2 ≤ mh ∧
      ((p.1 * h < p.2 * w + h ∧ p.2 * w < p.1 * h + h) ∨
       (p.1 * h < p.2 * w + w ∧ p.2 * w < p.1 * h + w)) := by
  unfold thumbnailSize at hp
  split at hp
  · exact Option.noConfusion hp
  · split at hp
    · rename_i hbr
      injection hp with hp
      subst hp
      have key := round_candidates (mh * w) h mw hh hmw (Nat.mul_pos hmh hw) hbr
      set v := if pickFloorX w h mh (mh * w / h) (ceilDiv (mh * w) h)
        then mh * w / h else ceilDiv (mh * w) h with hvdef
      have hv : v = mh * w / h ∨ v = ceilDiv (mh * w) h := by
        rw [hvdef]
        split
        · exact Or.inl rfl
        · exact Or.inr rfl
      obtain ⟨k1, k2, k3⟩ := key v hv
      exact ⟨k1, le_refl mh, Or.inl ⟨k2, k3⟩⟩
    · rename_i hbr
      injection hp with hp
      subst hp
      have hbr' : mw * h ≤ mh * w := by omega
      have key := round_candidates (mw * h) w mh hw hmh (Nat.mul_pos hmw hh) hbr'
      set v := if pickFloorY w h mw (mw * h / w) (ceilDiv (mw * h) w)
        then mw * h / w else ceilDiv (mw * h) w with hvdef
      have hv : v = mw * h / w ∨ v = ceilDiv (mw * h) w := by
        rw [hvdef]
        split
        · exact Or.inl rfl
        · exact Or.inr rfl
      obtain ⟨k1, k2, k3⟩ := key v hv
      exact ⟨le_refl mw, k1, Or.inr ⟨k3, k2⟩⟩

lemma Image.thumbnail_dims {img : Image} {mw mh : Nat} {p : Nat × Nat}
    (hp : thumbnailSize img.width img.height mw mh = some p) :
    (img.thumbnail mw mh).width = p.1 ∧ (img.thumbnail mw mh).height = p.2 := by
  obtain ⟨pw, ph⟩ := p
  unfold Image.thumbnail
  rw [hp]
  exact ⟨rfl, rfl⟩

/-! ## Claims -/

/-- **C8.** The Folder Provisioner is idempotent: `create_folders` ensures
the `backup` and `reduced` subdirectories exist, an existing directory is
not an error, and a second run on the provisioned filesystem returns the
same pair of paths and leaves the filesystem unchanged. -/
theorem c8_create_folders_idempotent (base_path : String) (fs : List String) :
    (create_folders base_path fs).1.1 ∈ (create_folders base_path fs).2 ∧
    (create_folders base_path fs).1.2 ∈ (create_folders base_path fs).2 ∧
    create_folders base_path ((create_folders base_path fs).2) =
      create_folders base_path fs := by
  have hb : (create_folders base_path fs).1.1 ∈ (create_folders base_path fs).2 :=
    mem_makedirs_of_mem _ (mem_makedirs_self _ fs)
  have hr : (create_folders base_path fs).1.2 ∈ (create_folders base_path fs).2 :=
    mem_makedirs_self _ _
  refine ⟨hb, hr, ?_⟩
  simp only [create_folders]
  rw [makedirs_eq_of_mem
      (mem_makedirs_of_mem (os_path_join base_path "reduced")
        (mem_makedirs_self (os_path_join base_path "backup") fs)),
    makedirs_eq_of_mem
      (mem_makedirs_self (os_path_join base_path "reduced")
        (makedirs (os_path_join base_path "backup") fs))]

/-- **C4.** Whenever the Image Transform fails to produce an output
(decode failure, JPEG-unsupported mode, unwritable destination), it
returns the sentinel pair `(0, 0)` instead of propagating the error; in
the embedding the function is total, so no exception escapes. -/
theorem c4_failure_returns_sentinel (output_path : String) (src : Source)
    (quality max_width max_height : Nat)
    (h : (reduce_image_size output_path src quality max_width max_height).output = none) :
    (reduce_image_size output_path src quality max_width max_height).result = (0, 0) :=
  reduce_result_of_output_none h

/-- Witness for C4 at a source whose decode fails. -/
theorem c4_witness :
    (reduce_image_size "/base/reduced/a.jpg" ⟨none, 0, true, 0⟩ 85 1200 1200).output = none ∧
    (reduce_image_size "/base/reduced/a.jpg" ⟨none, 0, true, 0⟩ 85 1200 1200).result = (0, 0) :=
  ⟨rfl, c4_failure_returns_sentinel "/base/reduced/a.jpg" ⟨none, 0, true, 0⟩ 85 1200 1200 rfl⟩

/-- **C3.** The Directory Scanner returns exactly the entries of the
listing whose name ends, case-insensitively, with one of the supported
extensions, joined onto the folder path (so unsupported names are
excluded), and the result is sorted lexicographically by full path,
ascending. -/
theorem c3_scanner_filter_and_sort (folder_path : String) (listing : List String) :
    (get_image_files folder_path listing).Perm
        ((listing.filter isSupportedName).map (os_path_join folder_path)) ∧
    List.Sorted (· ≤ ·) (get_image_files folder_path listing) ∧
    ∀ p, p ∈ get_image_files folder_path listing ↔
      ∃ name, name ∈ listing ∧ isSupportedName name = true ∧
        p = os_path_join folder_path name := by
  have hperm := List.mergeSort_perm
    ((listing.filter isSupportedName).map (os_path_join folder_path))
    (fun a b => a ≤ b)
  refine ⟨hperm, List.sorted_mergeSort' _, ?_⟩
  intro p
  rw [get_image_files, hperm.mem_iff]
  simp only [List.mem_map, List.mem_filter]
  constructor
  · rintro ⟨name, ⟨hmem, hsup⟩, rfl⟩
    exact ⟨name, hmem, hsup, rfl⟩
  · rintro ⟨name, hmem, hsup, rfl⟩
    exact ⟨name, ⟨hmem, hsup⟩, rfl⟩

/-- Witness for C3: a supported `.JPG` name (upper case) is in the scan
result of its folder. -/
theorem c3_witness :
    "/base/photos/a.JPG" ∈ get_image_files "/base/photos" ["a.JPG", "notes.txt"] :=
  ((c3_scanner_filter_and_sort "/base/photos" ["a.JPG", "notes.txt"]).2.2
    "/base/photos/a.JPG").mpr
    ⟨"a.JPG", by decide, by decide, by decide⟩

/-- **C5.** When the backup copy of a file fails, the driver skips the
file entirely: the loop body leaves the whole batch state unchanged (so
the Image Transform is never invoked for it — the transform-call log does
not grow — and it contributes nothing to the totals), and the run over the
remaining files is exactly the run without that file. -/
theorem c5_backup_failure_skips_file (quality max_width max_height : Nat)
    (reduced_folder : String) (env : String → FileEnv) (image_path : String)
    (h : (env image_path).backupOk = false) :
    (∀ st, driverStep quality max_width max_height reduced_folder env st image_path = st) ∧
    ∀ pre suf,
      runBatch quality max_width max_height reduced_folder env (pre ++ image_path :: suf) =
        runBatch quality max_width max_height reduced_folder env (pre ++ suf) := by
  have hstep : ∀ st,
      driverStep quality max_width max_height reduced_folder env st image_path = st :=
    fun st => driverStep_of_backupOk_false quality max_width max_height reduced_folder st h
  refine ⟨hstep, fun pre suf => ?_⟩
  unfold runBatch
  rw [List.foldl_append, List.foldl_append, List.foldl_cons, hstep]

/-- Witness for C5: a failing backup leaves a nonempty batch state
untouched. -/
theorem c5_witness :
    driverStep 85 1200 1200 "/base/reduced"
      (fun _ => ⟨false, ⟨none, 0, false, 0⟩⟩)
      ⟨⟨3, 400, 200⟩, ["/base/reduced/x.jpg"], [⟨"/base/reduced/x.jpg", "JPEG"⟩]⟩
      "/base/photos/a.jpg" =
    ⟨⟨3, 400, 200⟩, ["/base/reduced/x.jpg"], [⟨"/base/reduced/x.jpg", "JPEG"⟩]⟩ :=
  (c5_backup_failure_skips_file 85 1200 1200 "/base/reduced"
    (fun _ => ⟨false, ⟨none, 0, false, 0⟩⟩) "/base/photos/a.jpg" rfl).1 _

/-- **C6.** Totals accounting: a file whose backup succeeds and whose
transform succeeds (it produces an output; its source and encoded byte
sizes are positive, as for any real file) contributes exactly its
`(original_size, new_size)` pair and increments `processed_count` by one;
a file that fails at the backup step or at the transform step leaves the
totals unchanged. -/
theorem c6_totals_accounting (quality max_width max_height : Nat)
    (reduced_folder : String) (env : String → FileEnv) (st : BatchState)
    (image_path : String) :
    ((env image_path).backupOk = true →
      (reduce_image_size (os_path_join reduced_folder (os_path_basename image_path))
        (env image_path).src quality max_width max_height).output.isSome = true →
      0 < (env image_path).src.fileSize → 0 < (env image_path).src.encodedSize →
      (driverStep quality max_width max_height reduced_folder env st image_path).totals =
        ⟨st.totals.processed_count + 1,
         st.totals.total_original_size + (env image_path).src.fileSize,
         st.totals.total_new_size + (env image_path).src.encodedSize⟩) ∧
    ((env image_path).backupOk = false →
      (driverStep quality max_width max_height reduced_folder env st image_path).totals =
        st.totals) ∧
    ((reduce_image_size (os_path_join reduced_folder (os_path_basename image_path))
        (env image_path).src quality max_width max_height).output = none →
      (driverStep quality max_width max_height reduced_folder env st image_path).totals =
        st.totals) := by
  refine ⟨?_, ?_, ?_⟩
  · intro hb hsome hfs hes
    have hres := reduce_result_of_output_isSome hsome
    simp only [driverStep, hb, if_true, hres]
    rw [if_pos ⟨hfs, hes⟩]
  · intro hb
    rw [driverStep_of_backupOk_false quality max_width max_height reduced_folder st hb]
  · intro hnone
    by_cases hb : (env image_path).backupOk = true
    · have hres := reduce_result_of_output_none hnone
      simp only [driverStep, hb, if_true, hres]
      rw [if_neg]
      simp
    · rw [driverStep_of_backupOk_false quality max_width max_height reduced_folder st
        (Bool.not_eq_true _ ▸ hb)]

/-- Witness for C6: a successful backup + transform of a 1000-byte source
encoded to 400 bytes turns zero totals into `⟨1, 1000, 400⟩`. -/
theorem c6_witness :
    (driverStep 85 1200 1200 "/base/reduced"
      (fun _ => ⟨true, ⟨some ⟨Mode.RGB, 100, 50, 1⟩, 1000, true, 400⟩⟩)
      ⟨⟨0, 0, 0⟩, [], []⟩ "/base/photos/a.jpg").totals = ⟨1, 1000, 400⟩ :=
  (c6_totals_accounting 85 1200 1200 "/base/reduced"
    (fun _ => ⟨true, ⟨some ⟨Mode.RGB, 100, 50, 1⟩, 1000, true, 400⟩⟩)
    ⟨⟨0, 0, 0⟩, [], []⟩ "/base/photos/a.jpg").1 rfl (by decide) (by decide) (by decide)

/-- **C9.** Every file the batch writes goes to the reduced folder under
the source's original filename — original extension included — while its
content format is always `"JPEG"` (line 33 hard-codes the save format), so
a `.png` or `.webp` input yields an output whose extension does not match
its encoded format. -/
theorem c9_output_keeps_filename (quality max_width max_height : Nat)
    (reduced_folder : String) (env : String → FileEnv) (files : List String) :
    ∀ w, w ∈ (runBatch quality max_width max_height reduced_folder env files).writes →
      ∃ p, p ∈ files ∧
        w.dest = os_path_join reduced_folder (os_path_basename p) ∧ w.format = "JPEG" := by
  intro w hw
  rcases writes_of_foldl quality max_width max_height reduced_folder env files _ w hw
    with h | h
  · simp at h
  · exact h

/-- Witness for C9: a processed `pic.png` is written as `pic.png` (not
`pic.jpg`) in the reduced folder, with format `"JPEG"`. -/
theorem c9_witness :
    ∃ p, p ∈ ["/base/photos/pic.png"] ∧
      (SaveCall.mk "/base/reduced/pic.png" "JPEG").dest =
        os_path_join "/base/reduced" (os_path_basename p) ∧
      (SaveCall.mk "/base/reduced/pic.png" "JPEG").format = "JPEG" :=
  c9_output_keeps_filename 85 1200 1200 "/base/reduced"
    (fun _ => ⟨true, ⟨some ⟨Mode.RGB, 100, 50, 1⟩, 1000, true, 400⟩⟩)
    ["/base/photos/pic.png"] ⟨"/base/reduced/pic.png", "JPEG"⟩ (by decide)

/-- **C10.** Given a successful backup, the driver counts a file exactly
when both returned sizes are strictly positive; any result with a zero
component — even one different from the `(0, 0)` sentinel — contributes
nothing and does not increment `processed_count`. -/
theorem c10_count_requires_both_positive (quality max_width max_height : Nat)
    (reduced_folder : String) (env : String → FileEnv) (st : BatchState)
    (image_path : String) (hb : (env image_path).backupOk = true) :
    ((0 < (reduce_image_size (os_path_join reduced_folder (os_path_basename image_path))
          (env image_path).src quality max_width max_height).result.1 ∧
      0 < (reduce_image_size (os_path_join reduced_folder (os_path_basename image_path))
          (env image_path).src quality max_width max_height).result.2) →
      (driverStep quality max_width max_height reduced_folder env st image_path).totals.processed_count =
        st.totals.processed_count + 1) ∧
    (¬(0 < (reduce_image_size (os_path_join reduced_folder (os_path_basename image_path))
          (env image_path).src quality max_width max_height).result.1 ∧
       0 < (reduce_image_size (os_path_join reduced_folder (os_path_basename image_path))
          (env image_path).src quality max_width max_height).result.2) →
      (driverStep quality max_width max_height reduced_folder env st image_path).totals =
        st.totals) := by
  constructor
  · intro hpos
    simp only [driverStep, hb, if_true]
    rw [if_pos hpos]
  · intro hneg
    simp only [driverStep, hb, if_true]
    rw [if_neg hneg]

/-- Witness for C10: a transform returning `(5, 0)` — different from the
`(0, 0)` sentinel, reachable when the encoder's output is empty — is not
counted and leaves nonzero totals unchanged. -/
theorem c10_witness :
    (reduce_image_size "/base/reduced/a.jpg"
      ⟨some ⟨Mode.RGB, 100, 50, 1⟩, 5, true, 0⟩ 85 1200 1200).result = (5, 0) ∧
    (5, 0) ≠ (0, 0) ∧
    (driverStep 85 1200 1200 "/base/reduced"
      (fun _ => ⟨true, ⟨some ⟨Mode.RGB, 100, 50, 1⟩, 5, true, 0⟩⟩)
      ⟨⟨2, 10, 7⟩, [], []⟩ "/base/photos/a.jpg").totals = ⟨2, 10, 7⟩ :=
  ⟨by decide, by decide,
    (c10_count_requires_both_positive 85 1200 1200 "/base/reduced"
      (fun _ => ⟨true, ⟨some ⟨Mode.RGB, 100, 50, 1⟩, 5, true, 0⟩⟩)
      ⟨⟨2, 10, 7⟩, [], []⟩ "/base/photos/a.jpg" rfl).2 (by decide)⟩

/-- **C1 (counterexample).** An `LA` image (greyscale with alpha — a mode
PNG can decode to) has an alpha channel, yet line 22 checks only for
`'RGBA'` and `'P'`: the image reaching `img.save` still has mode `LA`, so
it is *not* converted to a 3-channel representation before re-encoding;
the JPEG encoder then rejects it and the transform fails with `(0, 0)`. -/
theorem c1_counterexample :
    Mode.hasAlpha Mode.LA = true ∧
    (reduce_image_size "/base/reduced/a.png"
      ⟨some ⟨Mode.LA, 100, 80, 1⟩, 500, true, 300⟩ 85 1200 1200).preEncode =
        some ⟨Mode.LA, 100, 80, 1⟩ ∧
    Mode.LA ≠ Mode.RGB ∧
    (reduce_image_size "/base/reduced/a.png"
      ⟨some ⟨Mode.LA, 100, 80, 1⟩, 500, true, 300⟩ 85 1200 1200).result = (0, 0) := by
  decide

/-- **C1 (amended).** A decoded image whose mode is `RGBA` or `P` is
converted to 3-channel `RGB` before re-encoding; for the remaining alpha
mode (`LA`) the encode fails instead, so in every case an output actually
written by the transform carries no alpha channel. -/
theorem c1_mode_normalization (output_path : String) (src : Source)
    (quality max_width max_height : Nat) :
    (∀ img0, src.decode = some img0 →
      (img0.mode = Mode.RGBA ∨ img0.mode = Mode.P) →
      ∀ pimg,
        (reduce_image_size output_path src quality max_width max_height).preEncode =
          some pimg →
        pimg.mode = Mode.RGB) ∧
    (∀ o, (reduce_image_size output_path src quality max_width max_height).output = some o →
      o.mode.hasAlpha = false) := by
  obtain ⟨dec, fsz, wok, enc⟩ := src
  cases dec with
  | none =>
    constructor
    · intro img0 hdec
      exact absurd hdec (by simp)
    · intro o ho
      simp [reduce_image_size] at ho
  | some img0' =>
    constructor
    · intro img0 hdec hmode pimg hpre
      obtain rfl : img0' = img0 := by injection hdec
      simp only [reduce_image_size] at hpre
      have hpe : pimg = resizeStep max_width max_height
          (convertStep (ImageOps_exif_transpose img0')) := by
        split at hpre <;> · injection hpre with h; exact h.symm
      rw [hpe, resizeStep_mode,
        convertStep_mode_of_alpha_or_palette (ImageOps_exif_transpose_mode img0' ▸ hmode)]
    · intro o ho
      simp only [reduce_image_size] at ho
      split at ho
      · rename_i hcond
        obtain rfl : resizeStep max_width max_height
            (convertStep (ImageOps_exif_transpose img0')) = o := by injection ho
        exact Mode.hasAlpha_eq_false_of_jpegWritable hcond.1
      · simp at ho

/-- Witness for the amended C1: an `RGBA` decode reaches the encoder as
`RGB`, and the written output has no alpha channel. -/
theorem c1_witness :
    (reduce_image_size "/base/reduced/a.png"
      ⟨some ⟨Mode.RGBA, 50, 60, 1⟩, 100, true, 40⟩ 85 1200 1200).preEncode =
      some ⟨Mode.RGB, 50, 60, 1⟩ ∧
    (Image.mk Mode.RGB 50 60 1).mode = Mode.RGB ∧
    (reduce_image_size "/base/reduced/a.png"
      ⟨some ⟨Mode.RGBA, 50, 60, 1⟩, 100, true, 40⟩ 85 1200 1200).output =
      some ⟨Mode.RGB, 50, 60, 1⟩ ∧
    Mode.hasAlpha (Image.mk Mode.RGB 50 60 1).mode = false :=
  ⟨by decide,
    (c1_mode_normalization "/base/reduced/a.png"
      ⟨some ⟨Mode.RGBA, 50, 60, 1⟩, 100, true, 40⟩ 85 1200 1200).1
      ⟨Mode.RGBA, 50, 60, 1⟩ rfl (Or.inl rfl) ⟨Mode.RGB, 50, 60, 1⟩ (by decide),
    by decide,
    (c1_mode_normalization "/base/reduced/a.png"
      ⟨some ⟨Mode.RGBA, 50, 60, 1⟩, 100, true, 40⟩ 85 1200 1200).2
      ⟨Mode.RGB, 50, 60, 1⟩ (by decide)⟩

/-- **C7 (counterexample).** With an existing `photos` directory whose
only entry is unsupported, `main` takes the no-image-files early return
*before* `create_folders` runs: on an initially empty filesystem, the
`backup` and `reduced` directories do not exist after the run — the claim
that they exist as empty directories is false. -/
theorem c7_counterexample :
    (mainRun ⟨"/base", true, true, ["notes.txt"],
        fun _ => ⟨false, ⟨none, 0, false, 0⟩⟩⟩ []).1 = RunOutcome.noImages ∧
    (mainRun ⟨"/base", true, true, ["notes.txt"],
        fun _ => ⟨false, ⟨none, 0, false, 0⟩⟩⟩ []).2 = [] ∧
    ¬ "/base/backup" ∈ (mainRun ⟨"/base", true, true, ["notes.txt"],
        fun _ => ⟨false, ⟨none, 0, false, 0⟩⟩⟩ []).2 ∧
    ¬ "/base/reduced" ∈ (mainRun ⟨"/base", true, true, ["notes.txt"],
        fun _ => ⟨false, ⟨none, 0, false, 0⟩⟩⟩ []).2 := by
  have h : List.filter isSupportedName ["notes.txt"] = [] := by decide
  have hmain : (mainRun ⟨"/base", true, true, ["notes.txt"],
      fun _ => ⟨false, ⟨none, 0, false, 0⟩⟩⟩ []) = (RunOutcome.noImages, []) := by
    simp [mainRun, get_image_files, h]
  rw [hmain]
  exact ⟨rfl, rfl, by simp, by simp⟩

/-- **C7 (amended).** When the photos folder exists, is a directory, and
its scan yields no supported image file, the run processes no files,
reports the no-image-files outcome, and returns before the Folder
Provisioner: the filesystem is unchanged, so the `backup` and `reduced`
directories are not created by the run. -/
theorem c7_empty_scan_returns_before_provisioning (e : MainEnv) (fs : List String)
    (h1 : e.photosExists = true) (h2 : e.photosIsDir = true)
    (h3 : get_image_files (os_path_join e.script_dir "photos") e.listing = []) :
    mainRun e fs = (RunOutcome.noImages, fs) := by
  simp [mainRun, h1, h2, h3]

/-- Witness for the amended C7 at a concrete environment. -/
theorem c7_witness :
    mainRun ⟨"/base", true, true, ["notes.txt"],
      fun _ => ⟨false, ⟨none, 0, false, 0⟩⟩⟩ ["/base/photos"] =
    (RunOutcome.noImages, ["/base/photos"]) :=
  c7_empty_scan_returns_before_provisioning _ _ rfl rfl
    (by
      have h : List.filter isSupportedName ["notes.txt"] = [] := by decide
      simp [get_image_files, h])

/-- **C2 (counterexample).** A decoded 800×600 image carrying EXIF
orientation 6 is within the 1200×1200 bounds, yet the transform's output
is 600×800: `ImageOps.exif_transpose` (line 20) swaps width and height
before the resize check, so "decoded dimensions within bounds implies
pixel dimensions unchanged" is false as stated. -/
theorem c2_counterexample :
    (Image.mk Mode.RGB 800 600 6).width ≤ 1200 ∧
    (Image.mk Mode.RGB 800 600 6).height ≤ 1200 ∧
    (reduce_image_size "/base/reduced/a.jpg"
      ⟨some ⟨Mode.RGB, 800, 600, 6⟩, 1000, true, 300⟩ 85 1200 1200).output =
      some ⟨Mode.RGB, 600, 800, 1⟩ ∧
    (reduce_image_size "/base/reduced/a.jpg"
      ⟨some ⟨Mode.RGB, 800, 600, 6⟩, 1000, true, 300⟩ 85 1200 1200).output.map
        Image.width ≠ some (Image.mk Mode.RGB 800 600 6).width := by
  decide

/-- **C2 (amended).** After orientation normalisation — which swaps width
and height for EXIF orientations 5–8 — the transform resizes exactly when
a dimension exceeds its bound: if both normalised dimensions are within
`max_width`/`max_height` the output keeps them unchanged; otherwise the
output satisfies both bounds and preserves the normalised aspect ratio to
within one pixel of rounding (on the width at scale `height`, or on the
height at scale `width`). -/
theorem c2_resize_exactly_when_oversized (output_path : String) (src : Source)
    (quality max_width max_height : Nat) (img0 : Image)
    (hdec : src.decode = some img0)
    (hmw : 0 < max_width) (hmh : 0 < max_height)
    (hw : 0 < (ImageOps_exif_transpose img0).width)
    (hh : 0 < (ImageOps_exif_transpose img0).height) :
    ∀ o, (reduce_image_size output_path src quality max_width max_height).output = some o →
      (((ImageOps_exif_transpose img0).width ≤ max_width ∧
        (ImageOps_exif_transpose img0).height ≤ max_height) →
        o.width = (ImageOps_exif_transpose img0).width ∧
        o.height = (ImageOps_exif_transpose img0).height) ∧
      ((max_width < (ImageOps_exif_transpose img0).width ∨
        max_height < (ImageOps_exif_transpose img0).height) →
        o.width ≤ max_width ∧ o.height ≤ max_height ∧
        ((((o.width * (ImageOps_exif_transpose img0).height : Nat) : Int) -
            ((o.height * (ImageOps_exif_transpose img0).width : Nat) : Int)).natAbs <
              (ImageOps_exif_transpose img0).height ∨
         (((o.width * (ImageOps_exif_transpose img0).height : Nat) : Int) -
            ((o.height * (ImageOps_exif_transpose img0).width : Nat) : Int)).natAbs <
              (ImageOps_exif_transpose img0).width)) := by
  obtain ⟨dec, fsz, wok, enc⟩ := src
  cases dec with
  | none =>
    intro o ho
    exact Option.noConfusion hdec
  | some img0' =>
    obtain rfl : img0' = img0 := by injection hdec
    intro o ho
    simp only [reduce_image_size] at ho
    split at ho
    · obtain rfl : resizeStep max_width max_height
          (convertStep (ImageOps_exif_transpose img0')) = o := by
        injection ho
      set t := ImageOps_exif_transpose img0' with ht
      constructor
      · rintro ⟨hwle, hhle⟩
        have hno : ¬((convertStep t).width > max_width ∨
            (convertStep t).height > max_height) := by
          rw [convertStep_width, convertStep_height]
          omega
        unfold resizeStep
        rw [if_neg hno, convertStep_width, convertStep_height]
        exact ⟨rfl, rfl⟩
      · intro hover
        have hyes : (convertStep t).width > max_width ∨
            (convertStep t).height > max_height := by
          rw [convertStep_width, convertStep_height]
          omega
        obtain ⟨p, hp⟩ := thumbnailSize_isSome t.width t.height
          max_width max_height (by omega)
        have hp' : thumbnailSize (convertStep t).width (convertStep t).height
            max_width max_height = some p := by
          rw [convertStep_width, convertStep_height]
          exact hp
        have hdims := Image.thumbnail_dims hp'
        have hspec := thumbnailSize_spec hp hw hh hmw hmh
        unfold resizeStep
        rw [if_pos hyes, hdims.1, hdims.2]
        refine ⟨hspec.1, hspec.2.1, ?_⟩
        rcases hspec.2.2 with ⟨h1, h2⟩ | ⟨h1, h2⟩
        · left
          omega
        · right
          omega
    · exact Option.noConfusion ho

/-- Witness for the amended C2: a 2000×1500 decode against 1200×1200
bounds is resized to 1200×900, within bounds and exactly on the 4:3
aspect ratio. -/
theorem c2_witness :
    (reduce_image_size "/base/reduced/b.jpg"
      ⟨some ⟨Mode.RGB, 2000, 1500, 1⟩, 900, true, 300⟩ 85 1200 1200).output =
      some ⟨Mode.RGB, 1200, 900, 1⟩ ∧
    ((Image.mk Mode.RGB 1200 900 1).width ≤ 1200 ∧
     (Image.mk Mode.RGB 1200 900 1).height ≤ 1200 ∧
     (((((Image.mk Mode.RGB 1200 900 1).width *
          (ImageOps_exif_transpose ⟨Mode.RGB, 2000, 1500, 1⟩).height : Nat) : Int) -
       (((Image.mk Mode.RGB 1200 900 1).height *
          (ImageOps_exif_transpose ⟨Mode.RGB, 2000, 1500, 1⟩).width : Nat) : Int)).natAbs <
         (ImageOps_exif_transpose ⟨Mode.RGB, 2000, 1500, 1⟩).height ∨
      ((((Image.mk Mode.RGB 1200 900 1).width *
          (ImageOps_exif_transpose ⟨Mode.RGB, 2000, 1500, 1⟩).height : Nat) : Int) -
       (((Image.mk Mode.RGB 1200 900 1).height *
          (ImageOps_exif_transpose ⟨Mode.RGB, 2000, 1500, 1⟩).width : Nat) : Int)).natAbs <
         (ImageOps_exif_transpose ⟨Mode.RGB, 2000, 1500, 1⟩).width)) :=
  ⟨by decide,
    (c2_resize_exactly_when_oversized "/base/reduced/b.jpg"
      ⟨some ⟨Mode.RGB, 2000, 1500, 1⟩, 900, true, 300⟩ 85 1200 1200
      ⟨Mode.RGB, 2000, 1500, 1⟩ rfl (by decide) (by decide) (by decide) (by decide)
      ⟨Mode.RGB, 1200, 900, 1⟩ (by decide)).2 (by decide)⟩

end ImageReducer
